import Mathlib

/-!
Verification development for the `next-mongo-connector` library
(`src/connector.ts`): a shallow embedding of the security validator
(`MongoSecurityValidator.validateURI` / `validateOptions`) and of the
connection manager (`MongoConnectionManager.connect`, `connectWithRetry`,
`closeConnection`, `getPoolStats`, `getConnection`,
`getConnectionWithTimeout`) together with theorems about them.

Modelling conventions:
* JavaScript strings are Lean `String`s; all hostnames and URIs of
  interest are ASCII, so JS UTF-16 `length` coincides with `String.length`.
* The platform WHATWG `new URL(uri)` parser is an external collaborator;
  it is passed in as an explicit argument `parse : Except String URLParts`
  (`.error msg` models the constructor throwing with message `msg`).
* The mongoose driver is an external collaborator; the outcome of each
  numbered establishment attempt is passed in as
  `outcomes : Nat -> Except String Conn`.
* JS `Map` iteration order (insertion order, updates in place) is modelled
  by an association list.
* Promises are modelled by their settled values (`Except`), and the
  single-threaded event loop of `getConnectionWithTimeout` by an explicit
  settlement state recording which code path settled the promise first.
-/

namespace MongoConnector

/-- The character-list analogue of JS `String.prototype.startsWith`:
`leadsList pat s` is true when `pat` is an initial segment of `s`. -/
def leadsList : List Char → List Char → Bool
  | [], _ => true
  | _ :: _, [] => false
  | a :: as, b :: bs => a == b && leadsList as bs

/-- `occursIn pat s` is the character-list analogue of JS
`String.prototype.includes`: `pat` occurs contiguously inside `s`. -/
def occursIn (pat : List Char) : List Char → Bool
  | [] => leadsList pat []
  | b :: rest => leadsList pat (b :: rest) || occursIn pat rest

/-- JS `s.includes(pat)`. -/
def jsIncludes (s pat : String) : Bool :=
  occursIn pat.data s.data

/-- The character-list analogue of JS `String.prototype.endsWith`:
`tailsIn pat s` is true when `pat` is a final segment of `s`. -/
def tailsIn (pat s : List Char) : Bool :=
  leadsList pat.reverse s.reverse

/-- Result record returned by both validators
(`SecurityValidation` in `src/types.ts`). -/
structure SecurityValidation where
  isValid : Bool
  errors : List String
  warnings : List String
deriving DecidableEq, Repr

/-- `connector.ts` line-by-line idiom `result.errors.push(msg); result.isValid = false`
guarded by a condition. -/
def stepErrIf (cond : Bool) (msg : String) (r : SecurityValidation) : SecurityValidation :=
  if cond then { r with isValid := false, errors := r.errors ++ [msg] } else r

/-- `connector.ts` idiom `result.warnings.push(msg)` guarded by a condition. -/
def stepWarnIf (cond : Bool) (msg : String) (r : SecurityValidation) : SecurityValidation :=
  if cond then { r with warnings := r.warnings ++ [msg] } else r

/-- The components of a successfully parsed URL as reported by the platform
WHATWG `URL` class: `protocol` keeps its trailing colon, `port` is `""`
when absent, `search`/`hash` include their leading delimiter when present. -/
structure URLParts where
  protocol : String
  hostname : String
  port : String
  pathname : String
  search : String
  hash : String
  username : String
  password : String
deriving DecidableEq, Repr

/-- `SECURITY_CONFIG.ALLOWED_PROTOCOLS` from `connector.ts`. -/
def allowedProtocols : List String := ["mongodb", "mongodb+srv"]

/-- `url.protocol.slice(0, -1)`: the protocol with its trailing colon removed. -/
def protocolName (u : URLParts) : String := String.mk u.protocol.data.dropLast

/-- The host allow-list predicate from `validateURI` (`connector.ts`
lines 158-169): a `*.`-entry matches exactly the strict subdomains of its
domain; any other entry matches by case-sensitive equality. -/
def hostMatches (hostname allowedHost : String) : Bool :=
  if leadsList ['*', '.'] allowedHost.data then
    let domain := allowedHost.data.drop 2
    decide (domain.length + 1 < hostname.data.length) && tailsIn ('.' :: domain) hostname.data
  else hostname == allowedHost

/-- Characters after the first `'@'` of the string
(`uri.substring(uri.indexOf('@') + 1)`); meaningful only when an `'@'`
is present. -/
def afterFirstAt (uri : String) : List Char :=
  (uri.data.dropWhile (fun c => !(c == '@'))).tail

/-- The "missing hostname after credentials" test of `validateURI`
(lines 104-113): after the first `'@'` there is nothing, or only a port
or a path. -/
def atCheckBad (uri : String) : Bool :=
  let a := afterFirstAt uri
  a.isEmpty || a.head? == some ':' || a.head? == some '/'

/-- The "`@` found without username/password" test of `validateURI`
(lines 116-124): the string starts with an allowed protocol immediately
followed by `'@'` (the regex alternation tries the plain protocol first). -/
def protoAtBad (uri : String) : Bool :=
  if leadsList "mongodb://".data uri.data then
    leadsList ['@'] (uri.data.drop 10)
  else if leadsList "mongodb+srv://".data uri.data then
    leadsList ['@'] (uri.data.drop 14)
  else false

/-- JS `uri.trim() === ''`: every character of the string is whitespace. -/
def jsTrimmedEmpty (uri : String) : Bool :=
  (uri.data.dropWhile Char.isWhitespace).isEmpty

/-- Numeric value of a digit string (the result of JS `parseInt` on a
nonempty all-digit string). -/
def digitsToNat (l : List Char) : Nat :=
  l.foldl (fun a c => a * 10 + (c.toNat - 48)) 0

/-- The digit run of the first match of the regex `:\d+[^0-9]` in the
string, if any: the leftmost `':'` that is followed by at least one digit
and whose maximal digit run is terminated by a further (non-digit)
character. -/
def findPortRun : List Char → Option (List Char)
  | [] => none
  | c :: rest =>
    if c == ':' then
      let run := rest.takeWhile (fun d => d.isDigit)
      if run.isEmpty then findPortRun rest
      else if (rest.drop run.length).isEmpty then findPortRun rest
      else some run
    else findPortRun rest

/-- The port pre-check of `validateURI` (lines 133-143): an embedded
`:\d+[^0-9]` match whose digits are outside `[1, 65535]`. -/
def portCheckFail (uri : String) : Bool :=
  match findPortRun uri.data with
  | none => false
  | some run => decide (digitsToNat run < 1) || decide (65535 < digitsToNat run)

/-- The early-return pre-checks of `validateURI` that run before the port
check (lines 79-131), in source order; `none` means control reaches the
port check. -/
def preCheckA (uri : String) : Option SecurityValidation :=
  if uri == "" then
    some ⟨false, ["MongoDB URI is required and must be a string"], []⟩
  else if jsTrimmedEmpty uri || uri == "mongodb://" || uri == "mongodb+srv://" then
    some ⟨false, ["Invalid URI format: incomplete URI"], []⟩
  else if jsIncludes uri "@" && !(jsIncludes uri "://") then
    some ⟨false, ["Invalid URI format: malformed URI with credentials but no protocol"], []⟩
  else if jsIncludes uri "@" && atCheckBad uri then
    some ⟨false, ["Invalid URI format: missing hostname after credentials"], []⟩
  else if protoAtBad uri then
    some ⟨false, ["Invalid URI format: @ found without username/password"], []⟩
  else if tailsIn ['@'] uri.data then
    some ⟨false, ["Invalid URI format: missing hostname after credentials"], []⟩
  else none

/-- All early-return pre-checks of `validateURI` before `new URL` is
attempted (lines 79-143): the checks of `preCheckA` followed by the port
check. -/
def preCheck (uri : String) : Option SecurityValidation :=
  match preCheckA uri with
  | some r => some r
  | none =>
    if portCheckFail uri then
      some ⟨false, ["Invalid URI format: invalid port number"], []⟩
    else none

/-- The host allow-list check of `validateURI` (lines 156-175): runs only
when an allow-list is supplied and nonempty. -/
def hostStep (allowedHosts : Option (List String)) (u : URLParts)
    (r : SecurityValidation) : SecurityValidation :=
  match allowedHosts with
  | none => r
  | some l =>
    if l.isEmpty then r
    else stepErrIf (!(l.any (fun a => hostMatches u.hostname a)))
      ("Host " ++ u.hostname ++ " is not in the allowed hosts list") r

/-- The two early-return checks at the end of `validateURI` (lines
194-212): the placeholder-hostname check, then the
protocol-and-host-only incompleteness check. -/
def endChecks (u : URLParts) (r : SecurityValidation) : SecurityValidation :=
  if (u.hostname == "invalid" || u.hostname == "host") && u.port == ""
      && (u.pathname ++ u.search ++ u.hash == "/" || u.pathname ++ u.search ++ u.hash == "") then
    { r with isValid := false, errors := r.errors ++ ["Invalid URI format: malformed hostname"] }
  else if u.port == "" && u.pathname == "/" && u.search == "" && u.hash == "" then
    { r with
      isValid := false
      errors := r.errors ++ ["Invalid URI format: missing database name or path"] }
  else r

/-- The checks of `validateURI` performed on a successfully parsed URL
(lines 146-212), in source order, starting from the fresh
`{isValid: true, errors: [], warnings: []}` result. -/
def mainChecks (uri : String) (allowedHosts : Option (List String)) (isProd : Bool)
    (u : URLParts) : SecurityValidation :=
  endChecks u
    (stepWarnIf (!(u.username == "") || !(u.password == ""))
      "Credentials detected in URI. Consider using environment variables"
      (stepWarnIf (isProd && (u.hostname == "localhost" || u.hostname == "127.0.0.1"))
        "Using localhost in production environment"
        (stepErrIf (jsIncludes uri "javascript:" || jsIncludes uri "data:")
          "Potentially malicious URI detected"
          (hostStep allowedHosts u
            (stepErrIf (!(allowedProtocols.contains (protocolName u)))
              ("Invalid protocol: " ++ u.protocol ++ ". Allowed: mongodb, mongodb+srv")
              ⟨true, [], []⟩)))))

/-- `MongoSecurityValidator.validateURI` (`connector.ts` lines 71-220).
The platform URL parser is the explicit argument `parse`; `.error msg`
models `new URL(uri)` throwing an error with message `msg`, which the
source catches (lines 214-217). The function is total: validation never
throws. -/
def validateURI (uri : String) (allowedHosts : Option (List String))
    (parse : Except String URLParts) (isProd : Bool) : SecurityValidation :=
  match preCheck uri with
  | some r => r
  | none =>
    match parse with
    | .error msg => ⟨false, ["Invalid URI format: " ++ msg], []⟩
    | .ok u => mainChecks uri allowedHosts isProd u

/-- The fields of `mongoose.ConnectOptions` inspected by
`MongoSecurityValidator.validateOptions`; `none` models an absent
(`undefined`) field. -/
structure ConnectOptions where
  ssl : Option Bool := none
  tls : Option Bool := none
  tlsAllowInvalidCertificates : Option Bool := none
  tlsAllowInvalidHostnames : Option Bool := none
  maxPoolSize : Option Nat := none
  bufferMaxEntries : Option Nat := none
deriving DecidableEq, Repr

/-- JS `options.field && options.field > k` for a numeric option:
an absent or zero (falsy) value is ignored. -/
def jsTruthyGT (o : Option Nat) (k : Nat) : Bool :=
  match o with
  | none => false
  | some n => !(n == 0) && decide (k < n)

/-- The production-only hard errors of `validateOptions` (`connector.ts`
lines 233-248), in source order. -/
def prodChecks (isProd : Bool) (o : ConnectOptions) (r : SecurityValidation) : SecurityValidation :=
  if isProd then
    stepErrIf (o.tlsAllowInvalidHostnames == some true)
      "Invalid hostnames should not be allowed in production"
      (stepErrIf (o.tlsAllowInvalidCertificates == some true)
        "Invalid certificates should not be allowed in production"
        (stepErrIf (o.ssl == some false || o.tls == some false)
          "SSL/TLS must be enabled in production" r))
  else r

/-- `MongoSecurityValidator.validateOptions` (`connector.ts` lines
225-262); `isProd` models `process.env.NODE_ENV === 'production'`. -/
def validateOptions (isProd : Bool) (o : ConnectOptions) : SecurityValidation :=
  stepWarnIf (jsTruthyGT o.bufferMaxEntries 1000)
    "Very large buffer size detected"
    (stepWarnIf (jsTruthyGT o.maxPoolSize 100)
      "Very large connection pool size detected"
      (prodChecks isProd o ⟨true, [], []⟩))

/-- A live mongoose connection handle, as far as the manager observes it.
`id` stands for JS object identity; `closeOk` is the behaviour of the
handle's `close()` (false models `close()` rejecting); `name` is the
database name the handle reports. -/
structure Conn where
  id : Nat
  readyState : Nat
  host : String
  name : String
  closeOk : Bool
deriving DecidableEq, Repr

/-- `ConnectionState` from `src/types.ts`. -/
inductive ConnState where
  | disconnected
  | connecting
  | connected
  | disconnecting
  | error
deriving DecidableEq, Repr

/-- `ConnectionInfo` from `src/types.ts`; timestamps are abstracted to
`Option Nat` (`none` means unset, the value is irrelevant). -/
structure ConnectionInfo where
  state : ConnState
  connectionName : String
  retryCount : Nat
  connectedAt : Option Nat := none
  host : Option String := none
  database : Option String := none
  lastError : Option String := none
deriving DecidableEq, Repr

instance {ε α : Type} [DecidableEq ε] [DecidableEq α] : DecidableEq (Except ε α) := fun a b =>
  match a, b with
  | Except.ok x, Except.ok y =>
    if h : x = y then isTrue (by rw [h]) else isFalse (fun hh => h (Except.ok.inj hh))
  | Except.ok _, Except.error _ => isFalse (fun hh => Except.noConfusion hh)
  | Except.error _, Except.ok _ => isFalse (fun hh => Except.noConfusion hh)
  | Except.error x, Except.error y =>
    if h : x = y then isTrue (by rw [h]) else isFalse (fun hh => h (Except.error.inj hh))

/-- `CachedConnection` from `src/types.ts`: `connection` is `none` until
the establishment promise resolves; `promiseResult` is the settled value
of the cached establishment promise. -/
structure CachedConnection where
  connection : Option Conn
  promiseResult : Except String Conn
  info : ConnectionInfo
deriving DecidableEq, Repr

/-- The global connection cache (`globalThis.__NEXT_MONGO_CONNECTOR__
.connections`), a JS `Map` modelled as an insertion-ordered association
list. -/
abbrev Cache := List (String × CachedConnection)

/-- JS `Map.prototype.get`. -/
def cacheGet (c : Cache) (n : String) : Option CachedConnection :=
  match List.find? (fun p => p.1 == n) c with
  | some p => some p.2
  | none => none

/-- JS `Map.prototype.set`: replaces in place when the key is present,
appends otherwise. -/
def cacheSet (c : Cache) (n : String) (v : CachedConnection) : Cache :=
  if List.any c (fun p => p.1 == n) then
    List.map (fun p => if p.1 == n then (n, v) else p) c
  else c ++ [(n, v)]

/-- JS `Map.prototype.delete`. -/
def cacheDelete (c : Cache) (n : String) : Cache :=
  List.filter (fun p => !(p.1 == n)) c

/-- `PoolStats` from `src/types.ts`. -/
structure PoolStats where
  totalConnections : Nat
  activeConnections : Nat
  pendingConnections : Nat
  failedConnections : Nat
  connectionNames : List String
deriving DecidableEq, Repr

/-- `MongoConnectionManager.getPoolStats` (`connector.ts` lines 648-659). -/
def getPoolStats (c : Cache) : PoolStats :=
  { totalConnections := c.length
    activeConnections :=
      (List.filter (fun p =>
        match p.2.connection with
        | some h => h.readyState == 1
        | none => false) c).length
    pendingConnections :=
      (List.filter (fun p => p.2.info.state == ConnState.connecting) c).length
    failedConnections :=
      (List.filter (fun p => p.2.info.state == ConnState.error) c).length
    connectionNames := List.map (fun p => p.1) c }

/-- `MongoConnectionManager.getConnection` (`connector.ts` lines 553-557):
`cachedConnection?.connection || null`. -/
def getConnection (c : Cache) (n : String) : Option Conn :=
  match cacheGet c n with
  | some cc => cc.connection
  | none => none

/-- `MongoConnectionManager.closeConnection` (`connector.ts` lines
619-632). The body is a single `try`: it marks the record
`disconnecting`, awaits `connection?.close()`, and only then deletes the
record; a rejected `close()` jumps to the `catch`, which logs and
swallows the error, so the delete is skipped and the (now
`disconnecting`) record stays cached. The function itself never throws:
it totally returns the new cache. -/
def closeConnection (cache : Cache) (n : String) : Cache :=
  match cacheGet cache n with
  | none => cache
  | some cc =>
    match cc.connection with
    | none => cacheDelete cache n
    | some h =>
      if h.closeOk then cacheDelete cache n
      else cacheSet cache n { cc with info := { cc.info with state := ConnState.disconnecting } }

/-- JS `x || dflt` for an optional string option: `undefined` and the
falsy `""` both select the default. -/
def jsOrStr (o : Option String) (dflt : String) : String :=
  match o with
  | none => dflt
  | some "" => dflt
  | some s => s

/-- JS `x || dflt` for an optional numeric option: `undefined` and the
falsy `0` both select the default. -/
def jsOrNat (o : Option Nat) (dflt : Nat) : Nat :=
  match o with
  | none => dflt
  | some 0 => dflt
  | some n => n

/-- `errors.join(', ')`. -/
def joinComma (l : List String) : String :=
  String.intercalate ", " l

/-- The fields of `MongoConnectionOptions` that influence the modelled
behaviour of `connect` (`debug`, `retryDelay` and `connectionTimeout`
only affect logging and real-time waiting, which the model abstracts
away). -/
structure ConnectCallOptions where
  options : ConnectOptions := {}
  connectionName : Option String := none
  maxRetries : Option Nat := none
  allowedHosts : Option (List String) := none
deriving Repr

/-- The retry loop of `MongoConnectionManager.connectWithRetry`
(`connector.ts` lines 435-498): `for (attempt = 1; attempt <= maxRetries;
attempt++)`, modelled with explicit fuel (initially `maxRetries`); the
fuel-exhausted case is the trailing
`throw new Error('Unexpected error in connection retry logic')`.
Returns the settled value of the establishment promise together with the
final `ConnectionInfo`. -/
def retryFrom (outcomes : Nat → Except String Conn) (maxRetries : Nat) :
    Nat → Nat → ConnectionInfo → Except String Conn × ConnectionInfo
  | _, 0, info => (Except.error "Unexpected error in connection retry logic", info)
  | attempt, fuel + 1, info =>
    match outcomes attempt with
    | Except.ok conn =>
      (Except.ok conn,
        { info with
          state := ConnState.connected
          connectedAt := some 0
          host := some conn.host
          database := some conn.name
          retryCount := attempt - 1 })
    | Except.error e =>
      let info2 := { info with lastError := some e, retryCount := attempt }
      if attempt == maxRetries then
        (Except.error
          ("Failed to connect after " ++ toString maxRetries ++ " attempts. Last error: " ++ e),
          { info2 with state := ConnState.error })
      else retryFrom outcomes maxRetries (attempt + 1) fuel info2

/-- `MongoConnectionManager.connect` (`connector.ts` lines 329-417):
validate the URI and the options, resolve the connection name, return the
cached establishment promise on a cache hit; on a miss insert a fresh
`connecting` record before awaiting, run the retry loop, and either
finalize the cached record on success or delete it and re-throw on
failure. Returns the settled value of the returned promise together with
the cache after the call settles. -/
def connect (cache : Cache) (uri : String) (opts : ConnectCallOptions)
    (parse : Except String URLParts) (isProd : Bool)
    (outcomes : Nat → Except String Conn) : Except String Conn × Cache :=
  let uriV := validateURI uri opts.allowedHosts parse isProd
  if !uriV.isValid then
    (Except.error ("Security validation failed: " ++ joinComma uriV.errors), cache)
  else
    let optV := validateOptions isProd opts.options
    if !optV.isValid then
      (Except.error ("Options validation failed: " ++ joinComma optV.errors), cache)
    else
      let connectionName := jsOrStr opts.connectionName "default"
      match cacheGet cache connectionName with
      | some existing => (existing.promiseResult, cache)
      | none =>
        let info0 : ConnectionInfo :=
          { state := ConnState.connecting, connectionName := connectionName, retryCount := 0 }
        let maxRetries := jsOrNat opts.maxRetries 3
        let pr := retryFrom outcomes maxRetries 1 maxRetries info0
        let pending : CachedConnection :=
          { connection := none, promiseResult := pr.1, info := pr.2 }
        let cache1 := cacheSet cache connectionName pending
        match pr.1 with
        | Except.ok conn =>
          let infoF :=
            { pr.2 with
              state := ConnState.connected
              connectedAt := some 0
              host := some conn.host
              database := some conn.name }
          (Except.ok conn,
            cacheSet cache1 connectionName
              { connection := some conn, promiseResult := Except.ok conn, info := infoF })
        | Except.error e => (Except.error e, cacheDelete cache1 connectionName)

/-- Which code path settled the promise of `getConnectionWithTimeout`:
the synchronous executor body, or the `setTimeout` timer callback. -/
inductive SettleSource where
  | syncPath
  | timerPath
deriving DecidableEq, Repr

/-- The settlement state of a promise racing a timer: whether the timer
is still armed, and the first settlement (a promise settles at most
once). -/
structure TimeoutState where
  timerActive : Bool
  settled : Option (SettleSource × Except String Conn)
deriving DecidableEq, Repr

/-- Settle the promise from the given source; later settlements of an
already-settled promise are ignored. -/
def settleFrom (src : SettleSource) (v : Except String Conn) (s : TimeoutState) : TimeoutState :=
  match s.settled with
  | some _ => s
  | none => { s with settled := some (src, v) }

/-- `clearTimeout(timeout)`. -/
def clearTimer (s : TimeoutState) : TimeoutState :=
  { s with timerActive := false }

/-- The synchronous executor body of `getConnectionWithTimeout`
(`connector.ts` lines 894-901): look up the connection; if it exists and
is ready, clear the timer and resolve; otherwise clear the timer and
reject. -/
def gcwtBody (cache : Cache) (n : String) (s : TimeoutState) : TimeoutState :=
  match getConnection cache n with
  | some conn =>
    if conn.readyState == 1 then
      settleFrom SettleSource.syncPath (Except.ok conn) (clearTimer s)
    else
      settleFrom SettleSource.syncPath
        (Except.error ("No active connection found for " ++ n)) (clearTimer s)
  | none =>
    settleFrom SettleSource.syncPath
      (Except.error ("No active connection found for " ++ n)) (clearTimer s)

/-- `MongoConnectionManager.getConnectionWithTimeout` (`connector.ts`
lines 885-903) under the single-threaded event loop: the timer is armed,
the executor body runs synchronously to completion, and only afterwards
can the timer callback fire, and only if it was not cleared. The result
is the promise's settlement. -/
def getConnectionWithTimeout (cache : Cache) (n : String) (timeoutMs : Nat) :
    Option (SettleSource × Except String Conn) :=
  let s0 : TimeoutState := { timerActive := true, settled := none }
  let s1 := gcwtBody cache n s0
  let s2 :=
    if s1.timerActive then
      settleFrom SettleSource.timerPath
        (Except.error ("Connection timeout after " ++ toString timeoutMs ++ "ms")) s1
    else s1
  s2.settled

/-- Parse of `mongodb://localhost:27017/mydb` by the platform URL class. -/
def uGood : URLParts := ⟨"mongodb:", "localhost", "27017", "/mydb", "", "", "", ""⟩

/-- Parse of `mongodb://evil.com/db?x=javascript:alert` by the platform
URL class. -/
def uJs : URLParts := ⟨"mongodb:", "evil.com", "", "/db", "?x=javascript:alert", "", "", ""⟩

/-- Parse of `mongodb://host/` by the platform URL class: placeholder
hostname, bare root path, no port, no query, no fragment. -/
def uBareHost : URLParts := ⟨"mongodb:", "host", "", "/", "", "", "", ""⟩

/-- Parse of `mongodb://example.com/` by the platform URL class. -/
def uBareExample : URLParts := ⟨"mongodb:", "example.com", "", "/", "", "", "", ""⟩

/-- Parse of `mongodb+srv://mongodb.net/app` by the platform URL class:
the hostname equals the bare wildcard domain `mongodb.net`. -/
def uWild : URLParts := ⟨"mongodb+srv:", "mongodb.net", "", "/app", "", "", "", ""⟩

/-- A ready connection handle whose `close()` succeeds. -/
def exConn : Conn := ⟨7, 1, "localhost", "mydb", true⟩

/-- A ready connection handle whose `close()` rejects. -/
def exBadCloseConn : Conn := ⟨7, 1, "localhost", "mydb", false⟩

/-- Connection info of an established default connection. -/
def exInfo : ConnectionInfo :=
  ⟨ConnState.connected, "default", 0, some 0, some "localhost", some "mydb", none⟩

/-- A cached record holding a handle whose `close()` rejects. -/
def exCachedBadClose : CachedConnection := ⟨some exBadCloseConn, Except.ok exBadCloseConn, exInfo⟩

/-- A cache holding only `exCachedBadClose` under the default name. -/
def exCacheBadClose : Cache := [("default", exCachedBadClose)]

/-- Options that explicitly disable transport encryption. -/
def exNoSslOptions : ConnectOptions := { ssl := some false }

/-- A driver behaviour in which every establishment attempt fails. -/
def failOutcomes : Nat → Except String Conn := fun _ => Except.error "connect ECONNREFUSED"

/-- The error message of every attempt of `failOutcomes`. -/
def failErrs : Nat → String := fun _ => "connect ECONNREFUSED"

/-- A driver behaviour in which every establishment attempt succeeds with
`exConn`. -/
def okOutcomes : Nat → Except String Conn := fun _ => Except.ok exConn

/-! Helper lemmas about the validation step combinators. -/

theorem isEmpty_append_one (l : List String) (m : String) : (l ++ [m]).isEmpty = false := by
  cases l <;> rfl

theorem stepErrIf_of_false (c : Bool) (m : String) (r : SecurityValidation)
    (h : r.isValid = false) : (stepErrIf c m r).isValid = false := by
  cases c <;> simp [stepErrIf, h]

theorem stepErrIf_inv (c : Bool) (m : String) (r : SecurityValidation)
    (h : r.isValid = r.errors.isEmpty) :
    (stepErrIf c m r).isValid = (stepErrIf c m r).errors.isEmpty := by
  cases c <;> simp [stepErrIf, h, isEmpty_append_one]

theorem stepErrIf_mem (c : Bool) (m m2 : String) (r : SecurityValidation)
    (h : m ∈ r.errors) : m ∈ (stepErrIf c m2 r).errors := by
  cases c
  · exact h
  · exact List.mem_append_left _ h

theorem stepWarnIf_isValid (c : Bool) (m : String) (r : SecurityValidation) :
    (stepWarnIf c m r).isValid = r.isValid := by
  cases c <;> rfl

theorem stepWarnIf_errors (c : Bool) (m : String) (r : SecurityValidation) :
    (stepWarnIf c m r).errors = r.errors := by
  cases c <;> rfl

theorem hostStep_of_false (ah : Option (List String)) (u : URLParts) (r : SecurityValidation)
    (h : r.isValid = false) : (hostStep ah u r).isValid = false := by
  unfold hostStep
  cases ah with
  | none => exact h
  | some l =>
    by_cases hl : l.isEmpty
    · simp [hl, h]
    · simp [hl, stepErrIf_of_false _ _ _ h]

theorem hostStep_inv (ah : Option (List String)) (u : URLParts) (r : SecurityValidation)
    (h : r.isValid = r.errors.isEmpty) :
    (hostStep ah u r).isValid = (hostStep ah u r).errors.isEmpty := by
  unfold hostStep
  cases ah with
  | none => exact h
  | some l =>
    by_cases hl : l.isEmpty
    · simp [hl, h]
    · simp [hl, stepErrIf_inv _ _ _ h]

theorem hostStep_mem (ah : Option (List String)) (u : URLParts) (m : String)
    (r : SecurityValidation) (h : m ∈ r.errors) : m ∈ (hostStep ah u r).errors := by
  unfold hostStep
  cases ah with
  | none => exact h
  | some l =>
    by_cases hl : l.isEmpty
    · simp [hl, h]
    · simp [hl, stepErrIf_mem _ _ _ _ h]

theorem endChecks_of_false (u : URLParts) (r : SecurityValidation)
    (h : r.isValid = false) : (endChecks u r).isValid = false := by
  unfold endChecks
  split
  · rfl
  · split
    · rfl
    · exact h

theorem endChecks_inv (u : URLParts) (r : SecurityValidation)
    (h : r.isValid = r.errors.isEmpty) :
    (endChecks u r).isValid = (endChecks u r).errors.isEmpty := by
  unfold endChecks
  split
  · simp [isEmpty_append_one]
  · split
    · simp [isEmpty_append_one]
    · exact h

theorem endChecks_mem (u : URLParts) (m : String) (r : SecurityValidation)
    (h : m ∈ r.errors) : m ∈ (endChecks u r).errors := by
  unfold endChecks
  split
  · exact List.mem_append_left _ h
  · split
    · exact List.mem_append_left _ h
    · exact h

theorem prodChecks_inv (isProd : Bool) (o : ConnectOptions) (r : SecurityValidation)
    (h : r.isValid = r.errors.isEmpty) :
    (prodChecks isProd o r).isValid = (prodChecks isProd o r).errors.isEmpty := by
  unfold prodChecks
  cases isProd
  · exact h
  · simp only [if_true]
    exact stepErrIf_inv _ _ _ (stepErrIf_inv _ _ _ (stepErrIf_inv _ _ _ h))

theorem preCheckA_some (uri : String) (r : SecurityValidation)
    (h : preCheckA uri = some r) : r.isValid = false ∧ r.errors.isEmpty = false := by
  unfold preCheckA at h
  repeat' split at h
  all_goals first
    | (injection h with h; subst h; exact ⟨rfl, rfl⟩)
    | (cases h)

theorem preCheck_some (uri : String) (r : SecurityValidation)
    (h : preCheck uri = some r) : r.isValid = false ∧ r.errors.isEmpty = false := by
  unfold preCheck at h
  cases hA : preCheckA uri with
  | some r2 =>
    rw [hA] at h
    injection h with h
    subst h
    exact preCheckA_some uri r2 hA
  | none =>
    rw [hA] at h
    by_cases hp : portCheckFail uri = true
    · simp only [hp, if_true] at h
      injection h with h
      subst h
      exact ⟨rfl, rfl⟩
    · simp only [hp, if_false] at h
      cases h

/-! Helper lemmas about the cache. -/

theorem bool_not_true {b : Bool} (h : ¬ b = true) : b = false := by
  cases b
  · rfl
  · exact absurd rfl h

theorem find?_cons_true {p : String × CachedConnection} {t : Cache} {n : String}
    (h : (p.1 == n) = true) :
    List.find? (fun q => q.1 == n) (p :: t) = some p := by
  simp only [List.find?]
  rw [h]

theorem find?_cons_false {p : String × CachedConnection} {t : Cache} {n : String}
    (h : (p.1 == n) = false) :
    List.find? (fun q => q.1 == n) (p :: t) = List.find? (fun q => q.1 == n) t := by
  simp only [List.find?]
  rw [h]

theorem cacheGet_delete_self (c : Cache) (n : String) :
    cacheGet (cacheDelete c n) n = none := by
  induction c with
  | nil => rfl
  | cons p t ih =>
    by_cases hp : (p.1 == n) = true
    · unfold cacheDelete at ih ⊢
      rw [List.filter_cons_of_neg (by simp [hp])]
      exact ih
    · have hpb := bool_not_true hp
      unfold cacheDelete at ih ⊢
      rw [List.filter_cons_of_pos (by simp [hpb])]
      unfold cacheGet at ih ⊢
      rw [find?_cons_false hpb]
      exact ih

theorem keys_delete_not_mem (c : Cache) (n : String) :
    n ∉ List.map (fun p => p.1) (cacheDelete c n) := by
  induction c with
  | nil => simp [cacheDelete]
  | cons p t ih =>
    by_cases hp : (p.1 == n) = true
    · unfold cacheDelete at ih ⊢
      rw [List.filter_cons_of_neg (by simp [hp])]
      exact ih
    · have hpb := bool_not_true hp
      unfold cacheDelete at ih ⊢
      rw [List.filter_cons_of_pos (by simp [hpb])]
      simp only [List.map_cons, List.mem_cons]
      rintro (h | h)
      · exact hp (by simp [h])
      · exact ih h

theorem find?_replace_self (c : Cache) (n : String) (v : CachedConnection)
    (h : List.any c (fun p => p.1 == n) = true) :
    List.find? (fun p => p.1 == n)
      (List.map (fun p => if p.1 == n then (n, v) else p) c) = some (n, v) := by
  induction c with
  | nil => cases h
  | cons p t ih =>
    by_cases hp : (p.1 == n) = true
    · simp only [List.map_cons, if_pos hp]
      exact find?_cons_true (by simp)
    · have hpb := bool_not_true hp
      rw [List.any_cons, hpb, Bool.false_or] at h
      simp only [List.map_cons, if_neg hp]
      rw [find?_cons_false hpb]
      exact ih h

theorem find?_append_absent (c : Cache) (n : String) (v : CachedConnection)
    (h : List.any c (fun p => p.1 == n) = false) :
    List.find? (fun p => p.1 == n) (c ++ [(n, v)]) = some (n, v) := by
  induction c with
  | nil => exact find?_cons_true (by simp)
  | cons p t ih =>
    rw [List.any_cons, Bool.or_eq_false_iff] at h
    rw [List.cons_append, find?_cons_false h.1]
    exact ih h.2

theorem cacheGet_set_self (c : Cache) (n : String) (v : CachedConnection) :
    cacheGet (cacheSet c n v) n = some v := by
  unfold cacheSet
  by_cases hA : List.any c (fun p => p.1 == n) = true
  · rw [if_pos hA]
    unfold cacheGet
    rw [find?_replace_self c n v hA]
  · rw [if_neg hA]
    unfold cacheGet
    rw [find?_append_absent c n v (bool_not_true hA)]

theorem any_replace_self (c : Cache) (n : String) (v : CachedConnection)
    (h : List.any c (fun p => p.1 == n) = true) :
    List.any (List.map (fun p => if p.1 == n then (n, v) else p) c)
      (fun p => p.1 == n) = true := by
  induction c with
  | nil => cases h
  | cons p t ih =>
    by_cases hp : (p.1 == n) = true
    · simp only [List.map_cons, if_pos hp, List.any_cons]
      simp
    · have hpb := bool_not_true hp
      rw [List.any_cons, hpb, Bool.false_or] at h
      simp only [List.map_cons, if_neg hp]
      rw [List.any_cons, hpb, Bool.false_or]
      exact ih h

theorem map_replace_absent (c : Cache) (n : String) (w : CachedConnection)
    (h : List.any c (fun p => p.1 == n) = false) :
    List.map (fun p => if p.1 == n then (n, w) else p) c = c := by
  induction c with
  | nil => rfl
  | cons p t ih =>
    rw [List.any_cons, Bool.or_eq_false_iff] at h
    simp only [List.map_cons, if_neg (by simp [h.1] : ¬ ((p.1 == n) = true))]
    rw [ih h.2]

theorem cacheSet_twice (c : Cache) (n : String) (v w : CachedConnection) :
    cacheSet (cacheSet c n v) n w = cacheSet c n w := by
  unfold cacheSet
  by_cases hA : List.any c (fun p => p.1 == n) = true
  · rw [if_pos hA, if_pos hA, if_pos (any_replace_self c n v hA), List.map_map]
    refine List.map_congr_left ?_
    intro p _
    by_cases hp : (p.1 == n) = true
    · simp [Function.comp, hp]
    · simp [Function.comp, hp]
  · have hAf := bool_not_true hA
    rw [if_neg hA, if_neg hA]
    have hA2 : List.any (c ++ [(n, v)]) (fun p => p.1 == n) = true := by simp
    rw [if_pos hA2, List.map_append, map_replace_absent c n w hAf]
    simp

theorem cacheSet_length_absent (c : Cache) (n : String) (v : CachedConnection)
    (h : List.any c (fun p => p.1 == n) = false) :
    (cacheSet c n v).length = c.length + 1 := by
  simp [cacheSet, h]

theorem cacheGet_none_any_false (c : Cache) (n : String)
    (h : cacheGet c n = none) : List.any c (fun p => p.1 == n) = false := by
  induction c with
  | nil => rfl
  | cons p t ih =>
    by_cases hp : (p.1 == n) = true
    · exfalso
      unfold cacheGet at h
      rw [find?_cons_true hp] at h
      exact Option.noConfusion h
    · have hpb := bool_not_true hp
      unfold cacheGet at h ih
      rw [find?_cons_false hpb] at h
      rw [List.any_cons, hpb, Bool.false_or]
      exact ih h

/-! Helper lemma about the retry loop. -/

theorem retryFrom_all_fail (outcomes : Nat → Except String Conn) (errs : Nat → String)
    (maxRetries : Nat)
    (hfail : ∀ i, 1 ≤ i → i ≤ maxRetries → outcomes i = Except.error (errs i)) :
    ∀ fuel attempt info, 1 ≤ attempt → attempt ≤ maxRetries →
      attempt + fuel = maxRetries + 1 →
      (retryFrom outcomes maxRetries attempt fuel info).1 =
        Except.error ("Failed to connect after " ++ toString maxRetries
          ++ " attempts. Last error: " ++ errs maxRetries) := by
  intro fuel
  induction fuel with
  | zero =>
    intro attempt info h1 h2 h3
    omega
  | succ f ih =>
    intro attempt info h1 h2 h3
    have hout := hfail attempt h1 h2
    by_cases heq : attempt = maxRetries
    · subst heq
      simp [retryFrom, hout]
    · have hb : (attempt == maxRetries) = false := by simp [heq]
      have hrec := ih (attempt + 1)
        { info with lastError := some (errs attempt), retryCount := attempt }
        (by omega) (by omega) (by omega)
      simpa [retryFrom, hout, hb] using hrec

/-! Further helper lemmas. -/

theorem stepWarnIf_inv (c : Bool) (m : String) (r : SecurityValidation)
    (h : r.isValid = r.errors.isEmpty) :
    (stepWarnIf c m r).isValid = (stepWarnIf c m r).errors.isEmpty := by
  cases c <;> simpa [stepWarnIf] using h

theorem validateOptions_inv (isProd : Bool) (o : ConnectOptions) :
    (validateOptions isProd o).isValid = (validateOptions isProd o).errors.isEmpty := by
  unfold validateOptions
  exact stepWarnIf_inv _ _ _ (stepWarnIf_inv _ _ _ (prodChecks_inv _ _ _ rfl))

theorem star_dot_data (d : String) : ("*." ++ d).data = '*' :: '.' :: d.data := by
  cases d
  rfl

theorem hostMatches_wildcard_eq (h d : String) :
    hostMatches h ("*." ++ d) =
      (decide (d.length + 1 < h.length) && tailsIn ('.' :: d.data) h.data) := by
  unfold hostMatches
  rw [star_dot_data]
  rfl

theorem hostMatches_bare_domain (d : String) : hostMatches d ("*." ++ d) = false := by
  rw [hostMatches_wildcard_eq]
  have hlt : decide (d.length + 1 < d.length) = false := by simp
  rw [hlt, Bool.false_and]

theorem hostStep_single_no_match (a : String) (u : URLParts) (r : SecurityValidation)
    (h : hostMatches u.hostname a = false) :
    hostStep (some [a]) u r =
      { r with
        isValid := false
        errors := r.errors ++ ["Host " ++ u.hostname ++ " is not in the allowed hosts list"] } := by
  have hany : List.any [a] (fun x => hostMatches u.hostname x) = false := by
    rw [List.any_cons, h]
    rfl
  simp only [hostStep]
  rw [if_neg (fun hh => Bool.noConfusion hh : ¬ (List.isEmpty [a] = true)), hany]
  rfl

theorem jsOrNat_pos (o : Option Nat) : 1 ≤ jsOrNat o 3 := by
  rcases o with _ | (_ | n) <;> simp [jsOrNat]

theorem validateURI_main_eq (uri : String) (ah : Option (List String)) (u : URLParts)
    (isProd : Bool) (hpre : preCheck uri = none) :
    validateURI uri ah (Except.ok u) isProd = mainChecks uri ah isProd u := by
  unfold validateURI
  rw [hpre]

theorem endChecks_incomplete (u : URLParts) (r : SecurityValidation)
    (hport : u.port = "") (hpath : u.pathname = "/") (hsearch : u.search = "")
    (hhash : u.hash = "") (hh1 : u.hostname ≠ "invalid") (hh2 : u.hostname ≠ "host") :
    endChecks u r =
      { r with
        isValid := false
        errors := r.errors ++ ["Invalid URI format: missing database name or path"] } := by
  unfold endChecks
  have e1 : (u.hostname == "invalid") = false := by simp [hh1]
  have e2 : (u.hostname == "host") = false := by simp [hh2]
  rw [e1, e2, hport, hpath, hsearch, hhash]
  simp

/-! Claim theorems. -/

/-- C5: for every target string containing the substring `javascript:` or
the substring `data:` anywhere, `validateURI` reports `isValid = false`,
for every allow-list, every outcome of the platform URL parser and every
execution mode. -/
theorem validateURI_malicious_substring (uri : String) (ah : Option (List String))
    (parse : Except String URLParts) (isProd : Bool)
    (h : jsIncludes uri "javascript:" = true ∨ jsIncludes uri "data:" = true) :
    (validateURI uri ah parse isProd).isValid = false := by
  unfold validateURI
  cases hpre : preCheck uri with
  | some r => exact (preCheck_some uri r hpre).1
  | none =>
    cases parse with
    | error msg => rfl
    | ok u =>
      unfold mainChecks
      apply endChecks_of_false
      rw [stepWarnIf_isValid, stepWarnIf_isValid]
      have hc : (jsIncludes uri "javascript:" || jsIncludes uri "data:") = true := by
        rcases h with h | h <;> simp [h]
      rw [hc]
      rfl

/-- Witness for C5 at the concrete target
`mongodb://evil.com/db?x=javascript:alert`, whose structure is otherwise
valid. -/
theorem validateURI_malicious_substring_witness :
    jsIncludes "mongodb://evil.com/db?x=javascript:alert" "javascript:" = true
    ∧ (validateURI "mongodb://evil.com/db?x=javascript:alert" none
        (Except.ok uJs) false).isValid = false :=
  ⟨by decide,
    validateURI_malicious_substring "mongodb://evil.com/db?x=javascript:alert" none
      (Except.ok uJs) false (Or.inl (by decide))⟩

/-- C6: `validateURI` is a total function (validation never throws:
every failure mode of the source, including a throwing URL parse, maps
to a returned record), and its result satisfies `isValid = true` exactly
when `errors` is empty — so warnings alone never make `isValid` false. -/
theorem validateURI_isValid_iff_no_errors (uri : String) (ah : Option (List String))
    (parse : Except String URLParts) (isProd : Bool) :
    (validateURI uri ah parse isProd).isValid =
      (validateURI uri ah parse isProd).errors.isEmpty := by
  unfold validateURI
  cases hpre : preCheck uri with
  | some r => exact ((preCheck_some uri r hpre).1).trans ((preCheck_some uri r hpre).2).symm
  | none =>
    cases parse with
    | error msg => rfl
    | ok u =>
      unfold mainChecks
      exact endChecks_inv _ _
        (stepWarnIf_inv _ _ _ (stepWarnIf_inv _ _ _
          (stepErrIf_inv _ _ _ (hostStep_inv _ _ _ (stepErrIf_inv _ _ _ rfl)))))

/-- C7: for every target whose first embedded `:<digits><non-digit>`
component (the code's notion of an embedded port) parses outside
`[1, 65535]`, and which passes the structural pre-checks that run
earlier, `validateURI` returns exactly the invalid-port failure — for
every allow-list, every parse outcome and every execution mode. -/
theorem validateURI_invalid_port (uri : String) (ah : Option (List String))
    (parse : Except String URLParts) (isProd : Bool) (run : List Char)
    (hA : preCheckA uri = none)
    (hm : findPortRun uri.data = some run)
    (hbad : digitsToNat run < 1 ∨ 65535 < digitsToNat run) :
    validateURI uri ah parse isProd =
      ⟨false, ["Invalid URI format: invalid port number"], []⟩ := by
  have hfail : portCheckFail uri = true := by
    unfold portCheckFail
    rw [hm]
    rcases hbad with h | h <;> simp [h]
  have hpc : preCheck uri =
      some ⟨false, ["Invalid URI format: invalid port number"], []⟩ := by
    unfold preCheck
    rw [hA]
    simp [hfail]
  unfold validateURI
  rw [hpc]

/-- Witness for C7 at the concrete target `mongodb://host:99999/db`
(embedded port 99999 > 65535). -/
theorem validateURI_invalid_port_witness :
    findPortRun "mongodb://host:99999/db".data = some ['9', '9', '9', '9', '9']
    ∧ validateURI "mongodb://host:99999/db" none (Except.error "ignored") false =
        ⟨false, ["Invalid URI format: invalid port number"], []⟩ :=
  ⟨by decide,
    validateURI_invalid_port "mongodb://host:99999/db" none (Except.error "ignored") false
      ['9', '9', '9', '9', '9'] (by decide) (by decide) (Or.inr (by decide))⟩

/-- C8 counterexample: the protocol-and-host-only target
`mongodb://host/` is indeed rejected, but with the malformed-hostname
error produced by the earlier placeholder-hostname check, not with the
incompleteness error the claim requires. -/
theorem validateURI_bare_host_counterexample :
    (validateURI "mongodb://host/" none (Except.ok uBareHost) false).isValid = false
    ∧ "Invalid URI format: missing database name or path" ∉
        (validateURI "mongodb://host/" none (Except.ok uBareHost) false).errors
    ∧ (validateURI "mongodb://host/" none (Except.ok uBareHost) false).errors =
        ["Invalid URI format: malformed hostname"] := by
  refine ⟨by decide, ?_, by decide⟩
  decide

/-- C8 (amended): for every target that passes the structural pre-checks
and parses to protocol and host only — empty port, bare root path `/`,
no query, no fragment — and whose hostname is not one of the placeholder
hostnames `invalid` / `host`, `validateURI` reports `isValid = false`
with the missing-database-or-path error; for the placeholder hostnames
the earlier malformed-hostname check fires instead (see the
counterexample). -/
theorem validateURI_incomplete_target (uri : String) (ah : Option (List String))
    (u : URLParts) (isProd : Bool)
    (hpre : preCheck uri = none)
    (hport : u.port = "") (hpath : u.pathname = "/") (hsearch : u.search = "")
    (hhash : u.hash = "") (hh1 : u.hostname ≠ "invalid") (hh2 : u.hostname ≠ "host") :
    (validateURI uri ah (Except.ok u) isProd).isValid = false
    ∧ "Invalid URI format: missing database name or path" ∈
        (validateURI uri ah (Except.ok u) isProd).errors := by
  rw [validateURI_main_eq uri ah u isProd hpre]
  unfold mainChecks
  rw [endChecks_incomplete u _ hport hpath hsearch hhash hh1 hh2]
  constructor
  · rfl
  · exact List.mem_append_right _ (by simp)

/-- Witness for the amended C8 at the concrete target
`mongodb://example.com/`. -/
theorem validateURI_incomplete_target_witness :
    (validateURI "mongodb://example.com/" none (Except.ok uBareExample) false).isValid = false
    ∧ "Invalid URI format: missing database name or path" ∈
        (validateURI "mongodb://example.com/" none (Except.ok uBareExample) false).errors :=
  validateURI_incomplete_target "mongodb://example.com/" none uBareExample false
    (by decide) rfl rfl rfl rfl (by decide) (by decide)

/-- C3: the wildcard allow-list entry `*.<domain>` matches a host exactly
when the host is a strict subdomain of the domain (host length strictly
greater than domain length + 1 and host ends with `.<domain>`); in
particular a host equal to the bare wildcard domain never matches, and
with such an allow-list `validateURI` fails the target; a non-wildcard
entry matches only by case-sensitive string equality. -/
theorem hostMatches_wildcard_spec (h d entry uri : String) (u : URLParts) (isProd : Bool) :
    hostMatches h ("*." ++ d) =
      (decide (d.length + 1 < h.length) && tailsIn ('.' :: d.data) h.data)
    ∧ hostMatches d ("*." ++ d) = false
    ∧ (leadsList ['*', '.'] entry.data = false →
        (hostMatches h entry = true ↔ h = entry))
    ∧ (preCheck uri = none → u.hostname = d →
        (validateURI uri (some ["*." ++ d]) (Except.ok u) isProd).isValid = false
        ∧ ("Host " ++ d ++ " is not in the allowed hosts list") ∈
            (validateURI uri (some ["*." ++ d]) (Except.ok u) isProd).errors) := by
  refine ⟨hostMatches_wildcard_eq h d, hostMatches_bare_domain d, ?_, ?_⟩
  · intro hw
    unfold hostMatches
    rw [if_neg (by simp [hw])]
    simp
  · intro hpre hh
    rw [validateURI_main_eq uri _ u isProd hpre]
    unfold mainChecks
    rw [hostStep_single_no_match ("*." ++ d) u _ (by rw [hh]; exact hostMatches_bare_domain d)]
    rw [hh]
    constructor
    · apply endChecks_of_false
      rw [stepWarnIf_isValid, stepWarnIf_isValid]
      apply stepErrIf_of_false
      rfl
    · apply endChecks_mem
      rw [stepWarnIf_errors, stepWarnIf_errors]
      apply stepErrIf_mem
      exact List.mem_append_right _ (by simp)

/-- Witness for C3: `cluster0.mongodb.net` is a strict subdomain of the
wildcard domain `mongodb.net`, the bare domain `mongodb.net` is not, a
non-wildcard entry matches only itself, and the concrete target
`mongodb+srv://mongodb.net/app` whose host equals the bare wildcard
domain fails validation. -/
theorem hostMatches_wildcard_spec_witness :
    hostMatches "cluster0.mongodb.net" ("*." ++ "mongodb.net") =
      (decide (String.length "mongodb.net" + 1 < String.length "cluster0.mongodb.net")
        && tailsIn ('.' :: "mongodb.net".data) "cluster0.mongodb.net".data)
    ∧ hostMatches "mongodb.net" ("*." ++ "mongodb.net") = false
    ∧ (hostMatches "cluster0.mongodb.net" "cluster0.mongodb.net" = true ↔
        "cluster0.mongodb.net" = "cluster0.mongodb.net")
    ∧ ((validateURI "mongodb+srv://mongodb.net/app" (some ["*." ++ "mongodb.net"])
          (Except.ok uWild) false).isValid = false
        ∧ ("Host " ++ "mongodb.net" ++ " is not in the allowed hosts list") ∈
            (validateURI "mongodb+srv://mongodb.net/app" (some ["*." ++ "mongodb.net"])
              (Except.ok uWild) false).errors) :=
  ⟨(hostMatches_wildcard_spec "cluster0.mongodb.net" "mongodb.net" "cluster0.mongodb.net"
      "mongodb+srv://mongodb.net/app" uWild false).1,
    (hostMatches_wildcard_spec "cluster0.mongodb.net" "mongodb.net" "cluster0.mongodb.net"
      "mongodb+srv://mongodb.net/app" uWild false).2.1,
    (hostMatches_wildcard_spec "cluster0.mongodb.net" "mongodb.net" "cluster0.mongodb.net"
      "mongodb+srv://mongodb.net/app" uWild false).2.2.1 (by decide),
    (hostMatches_wildcard_spec "cluster0.mongodb.net" "mongodb.net" "cluster0.mongodb.net"
      "mongodb+srv://mongodb.net/app" uWild false).2.2.2 (by decide) rfl⟩

/-- C9: under the production execution-mode flag, options that explicitly
disable transport encryption (`ssl: false` or `tls: false`) or
explicitly allow invalid certificates or invalid hostnames make
`validateOptions` fail with a populated error list; without the
production flag, every option set validates as valid. -/
theorem validateOptions_production_security (o : ConnectOptions) :
    ((o.ssl = some false ∨ o.tls = some false ∨ o.tlsAllowInvalidCertificates = some true
        ∨ o.tlsAllowInvalidHostnames = some true) →
      (validateOptions true o).isValid = false ∧ (validateOptions true o).errors ≠ [])
    ∧ (validateOptions false o).isValid = true := by
  constructor
  · intro h
    have hv : (validateOptions true o).isValid = false := by
      unfold validateOptions
      rw [stepWarnIf_isValid, stepWarnIf_isValid]
      unfold prodChecks
      rw [if_pos rfl]
      rcases h with h | h | h | h
      · apply stepErrIf_of_false
        apply stepErrIf_of_false
        have hc : (o.ssl == some false || o.tls == some false) = true := by simp [h]
        rw [hc]
        rfl
      · apply stepErrIf_of_false
        apply stepErrIf_of_false
        have hc : (o.ssl == some false || o.tls == some false) = true := by simp [h]
        rw [hc]
        rfl
      · apply stepErrIf_of_false
        have hc : (o.tlsAllowInvalidCertificates == some true) = true := by simp [h]
        rw [hc]
        rfl
      · have hc : (o.tlsAllowInvalidHostnames == some true) = true := by simp [h]
        rw [hc]
        rfl
    refine ⟨hv, ?_⟩
    intro hnil
    have hinv := validateOptions_inv true o
    rw [hv, hnil] at hinv
    exact Bool.noConfusion hinv
  · unfold validateOptions
    rw [stepWarnIf_isValid, stepWarnIf_isValid]
    unfold prodChecks
    rw [if_neg (fun hh => Bool.noConfusion hh)]

/-- Witness for C9 at the concrete options `{ssl: false}`. -/
theorem validateOptions_production_security_witness :
    (validateOptions true exNoSslOptions).isValid = false
    ∧ (validateOptions false exNoSslOptions).isValid = true :=
  ⟨((validateOptions_production_security exNoSslOptions).1 (Or.inl rfl)).1,
    (validateOptions_production_security exNoSslOptions).2⟩

/-- C1 counterexample: when the cached handle's `close()` rejects, the
record is NOT removed from the cache — `cache.connections.delete(name)`
sits after the `await close()` inside the `try`, so the thrown error
jumps over it into the `catch`. -/
theorem closeConnection_throw_counterexample :
    cacheGet (closeConnection exCacheBadClose "default") "default" ≠ none := by
  decide

/-- C1 (amended): `closeConnection` never throws (it is total and
swallows close failures), and after it returns the record is gone from
the cache exactly when the handle's `close()` did not throw (or there
was no handle); when `close()` throws, the record remains cached with
state `disconnecting`. -/
theorem closeConnection_cache_behaviour (cache : Cache) (n : String) (cc : CachedConnection)
    (h : cacheGet cache n = some cc) :
    (∀ conn, cc.connection = some conn → conn.closeOk = true →
        cacheGet (closeConnection cache n) n = none)
    ∧ (cc.connection = none → cacheGet (closeConnection cache n) n = none)
    ∧ (∀ conn, cc.connection = some conn → conn.closeOk = false →
        cacheGet (closeConnection cache n) n =
          some { cc with info := { cc.info with state := ConnState.disconnecting } }) := by
  refine ⟨?_, ?_, ?_⟩
  · intro conn hc hok
    unfold closeConnection
    rw [h]
    simp only [hc, hok, if_true]
    exact cacheGet_delete_self cache n
  · intro hc
    unfold closeConnection
    rw [h]
    simp only [hc]
    exact cacheGet_delete_self cache n
  · intro conn hc hok
    unfold closeConnection
    rw [h]
    simp only [hc, hok, Bool.false_eq_true, if_false]
    exact cacheGet_set_self cache n _

/-- Witness for the amended C1: closing the default connection whose
handle's `close()` rejects leaves the record cached in state
`disconnecting`. -/
theorem closeConnection_cache_behaviour_witness :
    cacheGet (closeConnection exCacheBadClose "default") "default" =
      some { exCachedBadClose with
        info := { exCachedBadClose.info with state := ConnState.disconnecting } } :=
  (closeConnection_cache_behaviour exCacheBadClose "default" exCachedBadClose rfl).2.2
    exBadCloseConn rfl rfl

/-- C10: under the single-threaded event loop, `getConnectionWithTimeout`
always settles from its synchronous executor body — resolving with the
cached connection when a record exists whose handle has `readyState = 1`,
and rejecting with the no-active-connection error otherwise — and the
timer settlement path is unreachable for every cache, name and timeout,
because the timer is cleared on both synchronous paths before the event
loop can run its callback. -/
theorem getConnectionWithTimeout_immediate (cache : Cache) (n : String) (t : Nat) :
    getConnectionWithTimeout cache n t =
      some (SettleSource.syncPath,
        match getConnection cache n with
        | some conn =>
          if conn.readyState == 1 then Except.ok conn
          else Except.error ("No active connection found for " ++ n)
        | none => Except.error ("No active connection found for " ++ n))
    ∧ ∀ e, getConnectionWithTimeout cache n t ≠ some (SettleSource.timerPath, e) := by
  have h1 : getConnectionWithTimeout cache n t =
      some (SettleSource.syncPath,
        match getConnection cache n with
        | some conn =>
          if conn.readyState == 1 then Except.ok conn
          else Except.error ("No active connection found for " ++ n)
        | none => Except.error ("No active connection found for " ++ n)) := by
    unfold getConnectionWithTimeout gcwtBody
    cases hg : getConnection cache n with
    | none => rfl
    | some conn =>
      by_cases hr : (conn.readyState == 1) = true
      · simp [settleFrom, clearTimer, hr]
      · have hrf : (conn.readyState == 1) = false := bool_not_true hr
        simp [settleFrom, clearTimer, hrf]
  refine ⟨h1, ?_⟩
  intro e hcon
  rw [h1] at hcon
  simp at hcon

/-- C2: when every establishment attempt fails, `connect` (after passing
validation, on a cache miss) rejects with the error naming the effective
attempt count (`maxRetries`, defaulting to 3) and the last attempt's
error message, and afterwards the connection name is absent from the
cache and from `getPoolStats().connectionNames`. -/
theorem connect_retry_exhaustion (cache : Cache) (uri : String) (opts : ConnectCallOptions)
    (parse : Except String URLParts) (isProd : Bool)
    (outcomes : Nat → Except String Conn) (errs : Nat → String)
    (hv1 : (validateURI uri opts.allowedHosts parse isProd).isValid = true)
    (hv2 : (validateOptions isProd opts.options).isValid = true)
    (hmiss : cacheGet cache (jsOrStr opts.connectionName "default") = none)
    (hfail : ∀ i, 1 ≤ i → i ≤ jsOrNat opts.maxRetries 3 →
        outcomes i = Except.error (errs i)) :
    (connect cache uri opts parse isProd outcomes).1 =
      Except.error ("Failed to connect after " ++ toString (jsOrNat opts.maxRetries 3)
        ++ " attempts. Last error: " ++ errs (jsOrNat opts.maxRetries 3))
    ∧ cacheGet (connect cache uri opts parse isProd outcomes).2
        (jsOrStr opts.connectionName "default") = none
    ∧ (jsOrStr opts.connectionName "default") ∉
        (getPoolStats (connect cache uri opts parse isProd outcomes).2).connectionNames := by
  have hM := jsOrNat_pos opts.maxRetries
  have hretry := retryFrom_all_fail outcomes errs (jsOrNat opts.maxRetries 3) hfail
    (jsOrNat opts.maxRetries 3) 1
    { state := ConnState.connecting
      connectionName := jsOrStr opts.connectionName "default"
      retryCount := 0 }
    (le_refl 1) hM (by omega)
  unfold connect
  simp only [hv1, Bool.not_true, Bool.false_eq_true, if_false, hv2, hmiss]
  rw [hretry]
  refine ⟨rfl, cacheGet_delete_self _ _, keys_delete_not_mem _ _⟩

/-- Witness for C2: from the empty cache, connecting to
`mongodb://localhost:27017/mydb` while every attempt fails with
`connect ECONNREFUSED` rejects with the three-attempt message, and the
default name is absent from the cache and the pool statistics. -/
theorem connect_retry_exhaustion_witness :
    (connect [] "mongodb://localhost:27017/mydb" {} (Except.ok uGood) false failOutcomes).1 =
      Except.error "Failed to connect after 3 attempts. Last error: connect ECONNREFUSED"
    ∧ cacheGet (connect [] "mongodb://localhost:27017/mydb" {} (Except.ok uGood) false
        failOutcomes).2 "default" = none
    ∧ "default" ∉ (getPoolStats (connect [] "mongodb://localhost:27017/mydb" {}
        (Except.ok uGood) false failOutcomes).2).connectionNames :=
  connect_retry_exhaustion [] "mongodb://localhost:27017/mydb" {} (Except.ok uGood) false
    failOutcomes failErrs (by decide) (by decide) rfl (fun _ _ _ => rfl)

/-- C4: after validation passes, a `connect` call for a name already in
the cache returns the cached record's establishment result and leaves
the cache untouched; starting from a miss, a successful first call
caches one record, an immediately repeated call returns the
object-identical handle and the identical cache, and the pool total
grows by exactly one across the two calls. -/
theorem connect_dedup (cache : Cache) (uri : String) (opts : ConnectCallOptions)
    (parse : Except String URLParts) (isProd : Bool)
    (outcomes : Nat → Except String Conn) (h1 : Conn) (cc : CachedConnection)
    (hv1 : (validateURI uri opts.allowedHosts parse isProd).isValid = true)
    (hv2 : (validateOptions isProd opts.options).isValid = true) :
    (cacheGet cache (jsOrStr opts.connectionName "default") = some cc →
      connect cache uri opts parse isProd outcomes = (cc.promiseResult, cache))
    ∧ (cacheGet cache (jsOrStr opts.connectionName "default") = none →
        outcomes 1 = Except.ok h1 →
        (connect cache uri opts parse isProd outcomes).1 = Except.ok h1
        ∧ connect (connect cache uri opts parse isProd outcomes).2 uri opts parse isProd
            outcomes
            = ((connect cache uri opts parse isProd outcomes).1,
               (connect cache uri opts parse isProd outcomes).2)
        ∧ (getPoolStats (connect cache uri opts parse isProd outcomes).2).totalConnections
            = cache.length + 1) := by
  constructor
  · intro hhit
    unfold connect
    simp only [hv1, Bool.not_true, Bool.false_eq_true, if_false, hv2, hhit]
  · intro hmiss hok
    have hMpos := jsOrNat_pos opts.maxRetries
    obtain ⟨f, hf⟩ : ∃ f, jsOrNat opts.maxRetries 3 = f + 1 :=
      ⟨jsOrNat opts.maxRetries 3 - 1, by omega⟩
    have key : connect cache uri opts parse isProd outcomes =
        (Except.ok h1,
          cacheSet cache (jsOrStr opts.connectionName "default")
            { connection := some h1
              promiseResult := Except.ok h1
              info :=
                { state := ConnState.connected
                  connectionName := jsOrStr opts.connectionName "default"
                  retryCount := 0
                  connectedAt := some 0
                  host := some h1.host
                  database := some h1.name
                  lastError := none } }) := by
      unfold connect
      simp only [hv1, Bool.not_true, Bool.false_eq_true, if_false, hv2, hmiss]
      rw [hf]
      simp only [retryFrom, hok]
      rw [cacheSet_twice]
    refine ⟨?_, ?_, ?_⟩
    · rw [key]
    · rw [key]
      unfold connect
      simp only [hv1, Bool.not_true, Bool.false_eq_true, if_false, hv2]
      rw [cacheGet_set_self]
    · rw [key]
      have hany := cacheGet_none_any_false cache _ hmiss
      simp only [getPoolStats]
      exact cacheSet_length_absent _ _ _ hany

/-- Witness for C4: from the empty cache, two identical `connect` calls
for `mongodb://localhost:27017/mydb` both resolve to the same handle
`exConn`, the second call changes nothing, and the pool holds exactly
one record. -/
theorem connect_dedup_witness :
    (connect [] "mongodb://localhost:27017/mydb" {} (Except.ok uGood) false okOutcomes).1
        = Except.ok exConn
    ∧ connect (connect [] "mongodb://localhost:27017/mydb" {} (Except.ok uGood) false
        okOutcomes).2 "mongodb://localhost:27017/mydb" {} (Except.ok uGood) false okOutcomes
        = ((connect [] "mongodb://localhost:27017/mydb" {} (Except.ok uGood) false
            okOutcomes).1,
           (connect [] "mongodb://localhost:27017/mydb" {} (Except.ok uGood) false
            okOutcomes).2)
    ∧ (getPoolStats (connect [] "mongodb://localhost:27017/mydb" {} (Except.ok uGood) false
        okOutcomes).2).totalConnections = 1 :=
  (connect_dedup [] "mongodb://localhost:27017/mydb" {} (Except.ok uGood) false okOutcomes
    exConn exCachedBadClose (by decide) (by decide)).2 rfl rfl

end MongoConnector
